import Mathlib

/-!
# javascript_examples.js

A shallow embedding of the script `javascript_examples.js` and of the parts of the
ECMAScript semantics its statements rely on, followed by theorems about it.

* Number values are IEEE-754 binary64 values with round-to-nearest, ties-to-even arithmetic.
* `Number::toString` follows ECMA-262 (shortest digit string that reads back as the same
  value, closest to the value among the shortest ones).
* Strings are Lean strings; objects are plain data records (no accessors, no proxies).
* Promises, timers and the job queue are an explicit state machine whose timer order is
  chosen by an arbitrary schedule.
-/

set_option exponentiation.threshold 5000

namespace JsExamples

/-! ## Number values -/

/-- Number of representable steps in one unit: every finite double is an integer multiple
of `2 ^ (-1074)`. -/
def unit : Nat := 2 ^ 1074

/-- Round the fraction `p / q` to the nearest natural number, ties to the even one. -/
def roundHalfEven (p q : Nat) : Nat :=
  let d := p / q
  let r := p % q
  if 2 * r < q then d else if q < 2 * r then d + 1 else if d % 2 = 0 then d else d + 1

/-- Binary search of `floorLog2`: the exponent is built from its bit `k` downwards. -/
def log2Search (n : Nat) : Nat → Nat → Nat
  | 0, lo => lo
  | k + 1, lo => if 2 ^ (lo + 2 ^ k) ≤ n then log2Search n k (lo + 2 ^ k) else log2Search n k lo

/-- Position of the highest set bit of `n`, for `0 < n < 2 ^ 4096` (every magnitude that
has not overflowed is far below that; from `2 ^ 4096` on the result is 4095). -/
def floorLog2 (n : Nat) : Nat := log2Search n 12 0

/-- Round the fraction `p / q` (`q > 0`), counted in steps of `2 ^ (-1074)`, to the nearest
binary64 value (53 significant bits, no finer than one step, ties to even), again counted in
steps. The exponent is not bounded here: `JSNumber.ofRounded` turns results from `2 ^ 1024`
on into an infinity. -/
def roundUnits (p q : Nat) : Nat :=
  let d := p / q
  if d < 2 ^ 53 then roundHalfEven p q
  else
    let sh := floorLog2 d - 52
    roundHalfEven p (q * 2 ^ sh) * 2 ^ sh

/-- A Number value. A finite value `finite u` is `u * 2 ^ (-1074)`; the two zeros are not
told apart (nothing in the script divides or inspects the sign of zero). -/
inductive JSNumber where
  | finite (units : Int)
  | posInf
  | negInf
  | nan
  deriving DecidableEq, Repr

/-- The Number whose value is exactly the integer `k` (meaningful when `k` is representable,
as every `k` up to `2 ^ 53` in magnitude is). -/
def JSNumber.exact (k : Int) : JSNumber := .finite (k * (unit : Int))

/-- Package a rounded magnitude with its sign; magnitudes from `2 ^ 1024` on overflow. -/
def JSNumber.ofRounded (neg : Bool) (r : Nat) : JSNumber :=
  if 2 ^ 2098 ≤ r then (if neg then .negInf else .posInf)
  else .finite (if neg then -(r : Int) else (r : Int))

/-- The Number value nearest to the fraction `p / q`, negated when `neg`. -/
def JSNumber.ofRat (neg : Bool) (p q : Nat) : JSNumber :=
  JSNumber.ofRounded neg (roundUnits (p * unit) q)

/-- The Number value of an integer literal or integer result. -/
def JSNumber.ofInt (k : Int) : JSNumber :=
  JSNumber.ofRat (decide (k < 0)) k.natAbs 1

/-- The Number value of a decimal literal `digits * 10 ^ (-fracDigits)`, such as
`3.14159 = 314159 * 10 ^ (-5)`. -/
def JSNumber.ofDecimal (digits fracDigits : Nat) : JSNumber :=
  JSNumber.ofRat false digits (10 ^ fracDigits)

/-- Number addition (`+` on two Number operands). -/
def JSNumber.add : JSNumber → JSNumber → JSNumber
  | .nan, _ => .nan
  | _, .nan => .nan
  | .posInf, .negInf => .nan
  | .negInf, .posInf => .nan
  | .posInf, _ => .posInf
  | _, .posInf => .posInf
  | .negInf, _ => .negInf
  | _, .negInf => .negInf
  | .finite a, .finite b =>
    JSNumber.ofRounded (decide (a + b < 0)) (roundUnits (a + b).natAbs 1)

/-- Number multiplication (`*`). -/
def JSNumber.mul : JSNumber → JSNumber → JSNumber
  | .nan, _ => .nan
  | _, .nan => .nan
  | .finite a, .finite b =>
    JSNumber.ofRounded (decide (a < 0) != decide (b < 0))
      (roundUnits (a.natAbs * b.natAbs) unit)
  | .finite a, .posInf =>
    if a = 0 then .nan else if a < 0 then .negInf else .posInf
  | .finite a, .negInf =>
    if a = 0 then .nan else if a < 0 then .posInf else .negInf
  | .posInf, .finite b =>
    if b = 0 then .nan else if b < 0 then .negInf else .posInf
  | .negInf, .finite b =>
    if b = 0 then .nan else if b < 0 then .posInf else .negInf
  | .posInf, .posInf => .posInf
  | .negInf, .negInf => .posInf
  | .posInf, .negInf => .negInf
  | .negInf, .posInf => .negInf

/-! ## Number::toString -/

/-- Count of decimal places after the point before the first nonzero digit of a value
below one: the largest `z` with `value * 10 ^ z < 1`. -/
def leadingZeros (A : Nat) : Nat → Nat → Nat
  | 0, z => z
  | fuel + 1, z => if A * 10 ^ (z + 1) < unit then leadingZeros A fuel (z + 1) else z

/-- The integer `D` with `10 ^ (D - 1) ≤ value < 10 ^ D`, for a positive value of `A` steps. -/
def decimalOrder (A : Nat) : Int :=
  if unit ≤ A then ((Nat.toDigits 10 (A / unit)).length : Int)
  else -((leadingZeros A 400 0 : Nat) : Int)

/-- Integer part of `value / 10 ^ t`. -/
def floorScaled (A : Nat) (t : Int) : Nat :=
  (A * 10 ^ (-t).toNat) / (unit * 10 ^ t.toNat)

/-- Whether the decimal `s * 10 ^ t` is read back as the value of `A` steps. -/
def roundsTo (A s : Nat) (t : Int) : Bool :=
  roundUnits (s * 10 ^ t.toNat * unit) (10 ^ (-t).toNat) == A

/-- Whether `(n, s)` is admissible with `k` digits: `s` has exactly `k` digits and
`s * 10 ^ (n - k)` is read back as the value. -/
def validCandidate (A k : Nat) (c : Int × Nat) : Bool :=
  decide (10 ^ (k - 1) ≤ c.2) && decide (c.2 < 10 ^ k) && roundsTo A c.2 (c.1 - (k : Int))

/-- Numerator and denominator of the distance between `s * 10 ^ t` and the value. -/
def distance (A s : Nat) (t : Int) : Nat × Nat :=
  ((((s * 10 ^ t.toNat * unit : Nat) : Int) - ((A * 10 ^ (-t).toNat : Nat) : Int)).natAbs,
    10 ^ (-t).toNat * unit)

/-- Whether candidate `c` is to be preferred to `b`: strictly closer to the value, or
equally close with an even digit string. -/
def closer (A k : Nat) (c b : Int × Nat) : Bool :=
  let dc := distance A c.2 (c.1 - (k : Int))
  let db := distance A b.2 (b.1 - (k : Int))
  decide (dc.1 * db.2 < db.1 * dc.2) ||
    (decide (dc.1 * db.2 = db.1 * dc.2) && decide (c.2 % 2 = 0) && decide (b.2 % 2 ≠ 0))

/-- The preferred candidate of a list. -/
def closest (A k : Nat) : List (Int × Nat) → Option (Int × Nat)
  | [] => none
  | c :: cs =>
    match closest A k cs with
    | none => some c
    | some b => if closer A k b c then some b else some c

/-- The digit strings of `k` digits next to the value, for the two possible positions of
the decimal point. -/
def candidates (A : Nat) (D : Int) (k : Nat) : List (Int × Nat) :=
  [(D, floorScaled A (D - (k : Int))), (D, floorScaled A (D - (k : Int)) + 1),
   (D + 1, floorScaled A (D + 1 - (k : Int))), (D + 1, floorScaled A (D + 1 - (k : Int)) + 1)]

/-- Search for the least number of digits `k` that admits a candidate; yields `(n, k, s)`. -/
def digitSearch (A : Nat) (D : Int) : Nat → Nat → Option (Int × Nat × Nat)
  | 0, _ => none
  | fuel + 1, k =>
    match closest A k ((candidates A D k).filter (validCandidate A k)) with
    | some c => some (c.1, k, c.2)
    | none => digitSearch A D fuel (k + 1)

/-- Decimal digits of a natural number, most significant first. -/
def digitsOf (s : Nat) : List Char := Nat.toDigits 10 s

/-- Layout of the digits `s` (`k` of them) with the decimal point after `n` digits,
ECMA-262 Number::toString steps 6 to 9. -/
def layout (n : Int) (k s : Nat) : String :=
  let ds := digitsOf s
  if -5 ≤ n ∧ n ≤ 21 then
    if (k : Int) ≤ n then String.mk (ds ++ List.replicate (n.toNat - k) '0')
    else if 0 < n then String.mk (ds.take n.toNat ++ '.' :: ds.drop n.toNat)
    else String.mk ('0' :: '.' :: List.replicate (-n).toNat '0' ++ ds)
  else
    let e := n - 1
    let es := (if e < 0 then '-' else '+') :: digitsOf e.natAbs
    if k = 1 then String.mk (ds ++ 'e' :: es)
    else String.mk (ds.take 1 ++ '.' :: ds.drop 1 ++ 'e' :: es)

/-- Number::toString for a positive finite value of `A` steps. -/
def positiveToString (A : Nat) : String :=
  match digitSearch A (decimalOrder A) 17 1 with
  | some (n, k, s) => layout n k s
  | none => "NaN"

/-- Number::toString with radix 10. -/
def JSNumber.toString : JSNumber → String
  | .nan => "NaN"
  | .posInf => "Infinity"
  | .negInf => "-Infinity"
  | .finite u =>
    if u = 0 then "0"
    else if u < 0 then "-" ++ positiveToString u.natAbs
    else positiveToString u.natAbs

/-! ## Values -/

/-- Language values: primitives and plain data records and arrays. Functions, symbols,
accessors and proxies are outside this universe. The fields of an object are kept in
property enumeration order, looked up first match first. -/
inductive JSValue where
  | undefined
  | null
  | boolean (b : Bool)
  | number (x : JSNumber)
  | string (s : String)
  | object (fields : List (String × JSValue))
  | array (items : List JSValue)

/-- Whether a value is `null` or `undefined`. -/
def JSValue.isNullish : JSValue → Bool
  | .undefined => true
  | .null => true
  | _ => false

mutual
/-- The abstract operation ToString, as applied by template literals. -/
def JSValue.toStr : JSValue → String
  | .undefined => "undefined"
  | .null => "null"
  | .boolean b => if b then "true" else "false"
  | .number x => x.toString
  | .string s => s
  | .object _ => "[object Object]"
  | .array items => joinItems "," items
/-- Array.prototype.join: `undefined` and `null` elements give the empty string. -/
def joinItems (sep : String) : List JSValue → String
  | [] => ""
  | [v] => if v.isNullish then "" else v.toStr
  | v :: w :: vs => (if v.isNullish then "" else v.toStr) ++ sep ++ joinItems sep (w :: vs)
end

/-- Lower-case hexadecimal digit. -/
def hexDigit (n : Nat) : Char :=
  if n < 10 then Char.ofNat (48 + n) else Char.ofNat (87 + n)

/-- The escape of one character inside a JSON string (QuoteJSONString). -/
def quoteChar (c : Char) : List Char :=
  if c = Char.ofNat 34 then [Char.ofNat 92, Char.ofNat 34]
  else if c = Char.ofNat 92 then [Char.ofNat 92, Char.ofNat 92]
  else if c = Char.ofNat 8 then [Char.ofNat 92, 'b']
  else if c = Char.ofNat 9 then [Char.ofNat 92, 't']
  else if c = Char.ofNat 10 then [Char.ofNat 92, 'n']
  else if c = Char.ofNat 12 then [Char.ofNat 92, 'f']
  else if c = Char.ofNat 13 then [Char.ofNat 92, 'r']
  else if c.toNat < 32 then
    [Char.ofNat 92, 'u', '0', '0', hexDigit (c.toNat / 16), hexDigit (c.toNat % 16)]
  else [c]

/-- The JSON text of a string: QuoteJSONString. -/
def quoteJSONString (s : String) : String :=
  String.mk (Char.ofNat 34 :: (s.data.flatMap quoteChar ++ [Char.ofNat 34]))

mutual
/-- The function JSON.stringify with one argument; `none` stands for the result `undefined`. -/
def JSValue.stringify : JSValue → Option String
  | .undefined => none
  | .null => some "null"
  | .boolean b => some (if b then "true" else "false")
  | .number (.finite u) => some (JSNumber.toString (.finite u))
  | .number _ => some "null"
  | .string s => some (quoteJSONString s)
  | .object fields => some ("\x7b" ++ stringifyFields fields true ++ "\x7d")
  | .array items => some ("[" ++ stringifyItems items true ++ "]")
/-- Elements of an array, `undefined` written as `null`. -/
def stringifyItems : List JSValue → Bool → String
  | [], _ => ""
  | v :: vs, first =>
    (if first then "" else ",") ++
      (match v.stringify with
       | some t => t
       | none => "null") ++ stringifyItems vs false
/-- Members of an object, those whose value is `undefined` left out. -/
def stringifyFields : List (String × JSValue) → Bool → String
  | [], _ => ""
  | (key, v) :: fs, first =>
    match v.stringify with
    | some t => (if first then "" else ",") ++ quoteJSONString key ++ ":" ++ t ++
        stringifyFields fs false
    | none => stringifyFields fs first
end

/-- The text a template literal gives for the result of JSON.stringify. -/
def stringifyText (v : JSValue) : String :=
  match v.stringify with
  | some t => t
  | none => "undefined"

/-- Reasons for which an evaluation throws. -/
inductive JSError where
  | typeError (message : String)
  deriving DecidableEq, Repr

/-- First field of the given name. -/
def lookupField (key : String) : List (String × JSValue) → Option JSValue
  | [] => none
  | (k, v) :: fs => if k = key then some v else lookupField key fs

/-- Property read `v.key` for the property names the script reads (`theme`, `accent`,
`name`, ...), none of which a built-in prototype defines: an object gives its field or
`undefined`, another primitive gives `undefined`, `null` and `undefined` throw. -/
def JSValue.get (v : JSValue) (key : String) : Except JSError JSValue :=
  match v with
  | .undefined => .error (.typeError ("Cannot read properties of undefined (reading " ++ key ++ ")"))
  | .null => .error (.typeError ("Cannot read properties of null (reading " ++ key ++ ")"))
  | .object fields =>
    match lookupField key fields with
    | some x => .ok x
    | none => .ok .undefined
  | _ => .ok .undefined

/-- Optional chaining `v?.key`. -/
def JSValue.getOptional (v : JSValue) (key : String) : Except JSError JSValue :=
  if v.isNullish then .ok .undefined else v.get key

/-- Nullish coalescing `v ?? fallback`. -/
def JSValue.orElse (v fallback : JSValue) : JSValue :=
  if v.isNullish then fallback else v

/-- A default parameter value: used when the argument is `undefined` or omitted. -/
def JSValue.withDefault (v dflt : JSValue) : JSValue :=
  match v with
  | .undefined => dflt
  | _ => v

/-! ## The functions and constants of the script -/

/-- Line 5: `const pi = 3.14159`. -/
def pi : JSNumber := JSNumber.ofDecimal 314159 5

/-- Line 6: `let radius = 4`. -/
def radius : JSNumber := JSNumber.ofInt 4

/-- Line 7: `const circleArea = pi * radius * radius`. -/
def circleArea : JSNumber := (pi.mul radius).mul radius

/-- Lines 12-14: `function greet(name)`. -/
def greet (name : JSValue) : String :=
  "Hello, " ++ name.toStr ++ "!"

/-- Line 16: `const greetArrow = (name) => ...`. -/
def greetArrow (name : JSValue) : String :=
  "Hi there, " ++ name.toStr ++ "!"

/-- Line 23: `const mixedArray = [1, "two", { three: 3 }]`. -/
def mixedArray : List JSValue :=
  [.number (JSNumber.ofInt 1), .string "two", .object [("three", .number (JSNumber.ofInt 3))]]

/-- Line 30: `const user = { id: 1, username: "coder", active: true }`. -/
def user : JSValue :=
  .object [("id", .number (JSNumber.ofInt 1)), ("username", .string "coder"),
    ("active", .boolean true)]

/-- Lines 36-38: `function formatScore(name = "Anonymous", score = 0)`; an omitted argument
is `undefined`. -/
def formatScore (name score : JSValue) : String :=
  (name.withDefault (.string "Anonymous")).toStr ++ " scored " ++
    (score.withDefault (.number (JSNumber.ofInt 0))).toStr ++ " points."

/-- Lines 44-46: `function sumAll(...numbers)`, the rest parameter holding Number values:
`numbers.reduce((total, n) => total + n, 0)`. -/
def sumAll (numbers : List JSNumber) : JSNumber :=
  numbers.foldl (fun total n => total.add n) (JSNumber.ofInt 0)

/-- Line 48: `const baseScores = [5, 10, 15]`. -/
def baseScores : List JSNumber := [JSNumber.ofInt 5, JSNumber.ofInt 10, JSNumber.ofInt 15]

/-- Line 53: `const numbers = [1, 2, 3, 4]`. -/
def numbers : List JSNumber :=
  [JSNumber.ofInt 1, JSNumber.ofInt 2, JSNumber.ofInt 3, JSNumber.ofInt 4]

/-- The arrays of Number values that exist, each under the index it was created at. -/
structure ArrayStore where
  arrays : List (List JSNumber)

/-- Array.prototype.map with the callback `f`: a fresh array is created and filled from
the elements of the array at `ref`, in index order; its reference is returned. -/
def ArrayStore.map (f : JSNumber → JSNumber) (ref : Nat) (st : ArrayStore) :
    Nat × ArrayStore :=
  (st.arrays.length, ⟨st.arrays ++ [(st.arrays.getD ref []).map f]⟩)

/-- Line 54: the callback `(n) => n * n`. -/
def square (n : JSNumber) : JSNumber := n.mul n

/-- Line 54: `const squares = numbers.map((n) => n * n)` on the array at `ref`. -/
def squaresOf (ref : Nat) (st : ArrayStore) : Nat × ArrayStore :=
  st.map square ref

/-- Line 54 in the script itself. -/
def squares : List JSNumber := numbers.map square

/-- Lines 59-68: `class Counter`, an object with the one field `count`. -/
structure Counter where
  count : JSNumber
  deriving DecidableEq, Repr

/-- Lines 60-62: `constructor(start = 0)`; `none` is the omitted argument. -/
def Counter.new (start : Option JSNumber) : Counter :=
  match start with
  | some s => ⟨s⟩
  | none => ⟨JSNumber.ofInt 0⟩

/-- Lines 64-67: `increment()`: returned value and the object afterwards. -/
def Counter.increment (c : Counter) : JSNumber × Counter :=
  let updated : Counter := ⟨c.count.add (JSNumber.ofInt 1)⟩
  (updated.count, updated)

/-- The object after `n` consecutive calls of `increment`. -/
def Counter.afterCalls : Nat → Counter → Counter
  | 0, c => c
  | n + 1, c => (Counter.afterCalls n c).increment.2

/-- The `n`-th consecutive call of `increment` (`n ≥ 1`): returned value and the object
afterwards. -/
def Counter.nthCall (n : Nat) (c : Counter) : JSNumber × Counter :=
  (Counter.afterCalls (n - 1) c).increment

/-- Line 70: `const counter = new Counter()`. -/
def counter : Counter := Counter.new none

/-- Line 102: `const config = { theme: { accent: "blue" } }`. -/
def config : JSValue :=
  .object [("theme", .object [("accent", .string "blue")])]

/-- Line 103: `config.theme?.accent ?? "purple"` for a given `config`. -/
def accentColorOf (config : JSValue) : Except JSError JSValue := do
  let theme ← config.get "theme"
  let accent ← theme.getOptional "accent"
  pure (accent.orElse (.string "purple"))

/-- Line 103: `const accentColor = config.theme?.accent ?? "purple"`. -/
def accentColor : Except JSError JSValue := accentColorOf config

/-! ## Promises, timers and the job queue -/

/-- The value thrown for an error raised by the language itself. -/
def JSError.toValue : JSError → JSValue
  | .typeError message => .object [("name", .string "TypeError"), ("message", .string message)]

/-- State of a promise. -/
inductive PromiseState where
  | pending
  | fulfilled (value : JSValue)
  | rejected (reason : JSValue)

/-- The closures of the script that run as promise reactions, and the two default
reactions of `then` and `catch`. -/
inductive Handler where
  /-- Default fulfilment reaction: hand the value on. -/
  | identity
  /-- Default rejection reaction: throw the reason again. -/
  | thrower
  /-- Line 80: `() => console.log("Promise resolved after 100ms")`. -/
  | logResolved
  /-- Line 81: `(error) => console.error("Promise rejected", error)`. -/
  | logRejected
  /-- Line 88: the rest of `fetchUser(id)` after `await wait(50)`. -/
  | resumeFetchUser (id : JSValue)
  /-- Line 94: the rest of the `try` block after `await fetchUser(42)`. -/
  | resumeMain
  /-- Line 96: the `catch` clause, entered when the awaited promise is rejected. -/
  | catchMain

/-- A reaction registered on a promise; `target` is the promise settled by the outcome of
the reaction (the promise returned by `then`, or the promise of the async function that
is waiting). -/
structure Reaction where
  onFulfilled : Handler
  onRejected : Handler
  target : Nat

/-- A promise: its state and the reactions waiting for it. -/
structure Promise where
  state : PromiseState
  reactions : List Reaction

/-- A promise reaction job in the job queue. -/
structure Job where
  handler : Handler
  argument : JSValue
  target : Nat

/-- A timer set by `setTimeout(resolve, ms)`: when it fires it calls the `resolve`
function of `promise` without argument. -/
structure Timer where
  delay : JSNumber
  promise : Nat
  deriving DecidableEq, Repr

/-- Everything the run of the script can observe or change. -/
structure World where
  /-- Lines written by `console.log`. -/
  out : List String
  /-- Calls of `console.error`: the label and the value reported. -/
  err : List (String × JSValue)
  promises : List Promise
  /-- The job queue, first job first. -/
  jobs : List Job
  /-- The timers that have not fired yet, in the order they were set. -/
  timers : List Timer

/-- The world at the start of the script. -/
def World.empty : World := ⟨[], [], [], [], []⟩

/-- The function `console.log` with one string. -/
def World.log (w : World) (line : String) : World :=
  { w with out := w.out ++ [line] }

/-- The function `console.error` with a label and a value. -/
def World.logError (w : World) (label : String) (v : JSValue) : World :=
  { w with err := w.err ++ [(label, v)] }

/-- State of promise `p`. -/
def World.stateOf (w : World) (p : Nat) : PromiseState :=
  match w.promises.get? p with
  | some pr => pr.state
  | none => .pending

/-- Create a pending promise. -/
def World.newPromise (w : World) : Nat × World :=
  (w.promises.length, { w with promises := w.promises ++ [⟨.pending, []⟩] })

/-- The job a settled promise queues for one of its reactions. -/
def Reaction.job (r : Reaction) (outcome : Except JSValue JSValue) : Job :=
  match outcome with
  | .ok v => ⟨r.onFulfilled, v, r.target⟩
  | .error e => ⟨r.onRejected, e, r.target⟩

/-- Resolve (`.ok`) or reject (`.error`) promise `p`: a pending promise takes the outcome
and queues its reactions, a settled one is left as it is. The values of this model are
data, never thenables, so resolving always fulfils. -/
def World.settle (w : World) (p : Nat) (outcome : Except JSValue JSValue) : World :=
  match w.promises.get? p with
  | some ⟨.pending, reactions⟩ =>
    { w with
      promises := w.promises.set p (Promise.mk
        (match outcome with
         | .ok v => .fulfilled v
         | .error e => .rejected e) [])
      jobs := w.jobs ++ reactions.map (fun r => r.job outcome) }
  | _ => w

/-- The operation PerformPromiseThen: register a reaction on a pending promise, queue its
job at once on a settled one. -/
def World.performThen (w : World) (p : Nat) (onFulfilled onRejected : Handler)
    (target : Nat) : World :=
  match w.promises.get? p with
  | some ⟨.pending, reactions⟩ =>
    { w with
      promises := w.promises.set p (Promise.mk .pending
        (reactions ++ [Reaction.mk onFulfilled onRejected target])) }
  | some ⟨.fulfilled v, _⟩ => { w with jobs := w.jobs ++ [⟨onFulfilled, v, target⟩] }
  | some ⟨.rejected e, _⟩ => { w with jobs := w.jobs ++ [⟨onRejected, e, target⟩] }
  | none => w

/-- The method `p.then(onFulfilled)`: the derived promise and the world. -/
def World.thenCall (w : World) (p : Nat) (onFulfilled : Handler) : Nat × World :=
  let d := w.newPromise
  (d.1, d.2.performThen p onFulfilled .thrower d.1)

/-- The method `p.catch(onRejected)`. -/
def World.catchCall (w : World) (p : Nat) (onRejected : Handler) : Nat × World :=
  let d := w.newPromise
  (d.1, d.2.performThen p .identity onRejected d.1)

/-- Lines 75-77: `function wait(ms)`: the executor runs at once and sets the timer. -/
def wait (ms : JSNumber) (w : World) : Nat × World :=
  let p := w.newPromise
  (p.1, { p.2 with timers := p.2.timers ++ [⟨ms, p.1⟩] })

/-- Lines 85-89: `async function fetchUser(id)` up to its `await`: the promise of the call
is created, `wait(50)` is called, and the rest of the body is registered on its promise;
a rejection of the awaited promise is thrown out of the body, rejecting the call. -/
def fetchUser (id : JSValue) (w : World) : Nat × World :=
  let call := w.newPromise
  let awaited := wait (JSNumber.ofInt 50) call.2
  (call.1, awaited.2.performThen awaited.1 (.resumeFetchUser id) .thrower call.1)

/-- Run the body of a reaction: the world afterwards and the value returned (`.ok`) or
thrown (`.error`). -/
def Handler.run : Handler → JSValue → World → World × Except JSValue JSValue
  | .identity, v, w => (w, .ok v)
  | .thrower, e, w => (w, .error e)
  | .logResolved, _, w => (w.log "Promise resolved after 100ms", .ok .undefined)
  | .logRejected, e, w => (w.logError "Promise rejected" e, .ok .undefined)
  | .resumeFetchUser id, _, w =>
    (w, .ok (.object [("id", id), ("name", .string "Simulated User")]))
  | .resumeMain, result, w =>
    match result.get "name" with
    | .ok name => (w.log ("Fetched user: " ++ name.toStr), .ok .undefined)
    | .error e => (w.logError "Failed to fetch user" e.toValue, .ok .undefined)
  | .catchMain, e, w => (w.logError "Failed to fetch user" e, .ok .undefined)

/-- Run one job: the reaction body, then the settling of its target. -/
def Job.run (j : Job) (w : World) : World :=
  let r := j.handler.run j.argument w
  r.1.settle j.target r.2

/-- Run jobs until the job queue is empty. -/
def drain : Nat → World → World
  | 0, w => w
  | fuel + 1, w =>
    match w.jobs with
    | [] => w
    | j :: js => drain fuel (j.run { w with jobs := js })

/-- Fire the pending timer at position `i`: its promise is resolved with `undefined`, then
the job queue is run until empty (at most `fuel` jobs). -/
def fireAt (fuel i : Nat) (w : World) : World :=
  match w.timers.get? i with
  | none => w
  | some t => drain fuel ({ w with timers := w.timers.eraseIdx i }.settle t.promise (.ok .undefined))

/-- The event loop: as long as a timer is pending, the schedule picks the one to fire
(at most `fuel` timers, each followed by at most `budget` jobs). -/
def eventLoop (schedule : Nat → Nat) (budget : Nat) : Nat → Nat → World → World
  | 0, _, w => w
  | fuel + 1, step, w =>
    if w.timers.length = 0 then w
    else eventLoop schedule budget fuel (step + 1)
      (fireAt budget (schedule step % w.timers.length) w)

/-- What happens after the top-level code has run: the job queue is emptied, then the
event loop runs. -/
def runLoop (schedule : Nat → Nat) (fuel : Nat) (w : World) : World :=
  eventLoop schedule fuel fuel 0 (drain fuel w)

/-! ## The top-level code of the script -/

/-- Lines 1-98: the statements before the last block. -/
def beforeAccent : Except JSError World := do
  let w := World.empty
  -- 1. Variables and basic operations
  let w := w.log ("Area of the circle: " ++ circleArea.toString)
  -- 2. Functions
  let w := w.log (greet (.string "Ada"))
  let w := w.log (greetArrow (.string "Grace"))
  -- 3. Arrays and iteration
  let w := mixedArray.foldl (fun w item => w.log ("Array item: " ++ stringifyText item)) w
  -- 4. Objects and destructuring
  let username ← user.get "username"
  let active ← user.get "active"
  let w := w.log ("User " ++ username.toStr ++ " active? " ++ active.toStr)
  -- 5. Default parameters and template literals
  let w := w.log (formatScore (.string "Avery") (.number (JSNumber.ofInt 12)))
  let w := w.log (formatScore .undefined .undefined)
  -- 6. Rest parameters and spread syntax
  let w := w.log ("Total score: " ++ (sumAll (baseScores ++ [JSNumber.ofInt 20])).toString)
  -- 7. Higher-order functions
  let w := w.log ("Squares: " ++ joinItems ", " (squares.map JSValue.number))
  -- 8. Classes
  let w := w.log ("Counter after increment: " ++ counter.increment.1.toString)
  -- 9. Promises
  let waited := wait (JSNumber.ofInt 100) w
  let chained := waited.2.thenCall waited.1 .logResolved
  let w := (chained.2.catchCall chained.1 .logRejected).2
  -- 10. Async/await
  let main := w.newPromise
  let fetched := fetchUser (.number (JSNumber.ofInt 42)) main.2
  pure (fetched.2.performThen fetched.1 .resumeMain .catchMain main.1)

/-- Lines 100-104: optional chaining and nullish coalescing. -/
def accentBlock (w : World) : Except JSError World := do
  let color ← accentColor
  pure (w.log ("Accent color: " ++ color.toStr))

/-- The top-level code, run to its end (lines 106-114 only export bindings). -/
def script : Except JSError World :=
  beforeAccent >>= accentBlock

/-- The whole run: the top-level code, then the event loop under a schedule. -/
def runScript (schedule : Nat → Nat) (fuel : Nat) : Except JSError World :=
  script.map (runLoop schedule fuel)

/-- The lines written by a run, none when the run threw. -/
def outOf (r : Except JSError World) : Option (List String) :=
  match r with
  | .ok w => some w.out
  | .error _ => none

/-- The world at the end of the top-level code. -/
def scriptWorld : World :=
  match script with
  | .ok w => w
  | .error _ => World.empty

/-- Whether a promise state is a rejection. -/
def PromiseState.isRejected : PromiseState → Bool
  | .rejected _ => true
  | _ => false

/-- Whether some promise of the world has been rejected. -/
def World.anyRejected (w : World) : Bool :=
  w.promises.any (fun p => p.state.isRejected)

/-! ## Theorems: greetings, nested read, circle area, synchronous output -/

/-- C4: for every string `name`, `greet(name)` is `"Hello, "`, then `name`, then `"!"`, and
`greetArrow(name)` is `"Hi there, "`, then `name`, then `"!"`; `greet("Ada")` is
`"Hello, Ada!"` and `greetArrow("Grace")` is `"Hi there, Grace!"`. -/
theorem greet_spec (name : String) :
    greet (.string name) = "Hello, " ++ name ++ "!" ∧
    greetArrow (.string name) = "Hi there, " ++ name ++ "!" ∧
    greet (.string "Ada") = "Hello, Ada!" ∧
    greetArrow (.string "Grace") = "Hi there, Grace!" :=
  ⟨rfl, rfl, by decide, by decide⟩

/-- C6: for every config object the read `config.theme?.accent ?? "purple"` does not throw;
when `theme` is `null` or `undefined` it yields `"purple"`; otherwise it reads `theme.accent`
and yields `"purple"` when that is `null` or `undefined` and the accent itself, unchanged,
in every other case (the empty string included); for `{ theme: { accent: "blue" } }` it
yields `"blue"`. -/
theorem accentColor_spec (fields : List (String × JSValue)) :
    (∃ theme, (JSValue.object fields).get "theme" = .ok theme ∧
      (theme.isNullish = true →
        accentColorOf (.object fields) = .ok (.string "purple")) ∧
      (theme.isNullish = false →
        ∃ accent, theme.get "accent" = .ok accent ∧
          (accent.isNullish = true →
            accentColorOf (.object fields) = .ok (.string "purple")) ∧
          (accent.isNullish = false →
            accentColorOf (.object fields) = .ok accent))) ∧
    accentColorOf (.object [("theme", .object [("accent", .string "")])]) = .ok (.string "") ∧
    accentColorOf (.object [("theme", .null)]) = .ok (.string "purple") ∧
    accentColorOf (.object []) = .ok (.string "purple") ∧
    accentColor = .ok (.string "blue") := by
  have key : ∀ theme accent, (JSValue.object fields).get "theme" = .ok theme →
      theme.getOptional "accent" = .ok accent →
      accentColorOf (.object fields) = .ok (accent.orElse (.string "purple")) := by
    intro theme accent h1 h2
    unfold accentColorOf
    rw [h1]
    show (theme.getOptional "accent" >>= fun a => pure (a.orElse (.string "purple"))) = _
    rw [h2]
    rfl
  have hth : ∃ theme, (JSValue.object fields).get "theme" = .ok theme := by
    cases hl : lookupField "theme" fields with
    | none => exact ⟨.undefined, by simp only [JSValue.get, hl]⟩
    | some theme => exact ⟨theme, by simp only [JSValue.get, hl]⟩
  obtain ⟨theme, h1⟩ := hth
  refine ⟨⟨theme, h1, fun hn => ?_, fun hn => ?_⟩, rfl, rfl, rfl, rfl⟩
  · have h2 : theme.getOptional "accent" = .ok .undefined := by
      simp only [JSValue.getOptional, hn, if_true]
    rw [key theme .undefined h1 h2]
    rfl
  · have hget : ∃ accent, theme.get "accent" = .ok accent := by
      cases theme with
      | undefined => exact absurd hn (by decide)
      | null => exact absurd hn (by decide)
      | object fs =>
        cases h3 : lookupField "accent" fs with
        | none => exact ⟨.undefined, by simp only [JSValue.get, h3]⟩
        | some a => exact ⟨a, by simp only [JSValue.get, h3]⟩
      | boolean b => exact ⟨_, rfl⟩
      | number x => exact ⟨_, rfl⟩
      | string x => exact ⟨_, rfl⟩
      | array x => exact ⟨_, rfl⟩
    obtain ⟨accent, ha⟩ := hget
    have h2 : theme.getOptional "accent" = .ok accent := by
      simp only [JSValue.getOptional, hn, Bool.false_eq_true, if_false, ha]
    refine ⟨accent, ha, fun h => ?_, fun h => ?_⟩
    · rw [key theme accent h1 h2]
      simp only [JSValue.orElse, h, if_true]
    · rw [key theme accent h1 h2]
      simp only [JSValue.orElse, h, Bool.false_eq_true, if_false]

/-- C8: in exact decimal arithmetic `3.14159 * 4 * 4 = 3.14159 * 16 = 50.26544`; the Number
computed by `pi * radius * radius` is the Number of the literal `50.26544`, its text is
`50.26544`, and the first line the script prints is `Area of the circle: 50.26544`. -/
theorem circleArea_spec :
    ((314159 : ℚ) / 100000) * 4 * 4 = (314159 / 100000) * 16 ∧
    ((314159 : ℚ) / 100000) * 16 = 5026544 / 100000 ∧
    circleArea = JSNumber.ofDecimal 5026544 5 ∧
    circleArea.toString = "50.26544" ∧
    (outOf script).map List.head? = some (some "Area of the circle: 50.26544") := by
  refine ⟨by norm_num, by norm_num, by decide!, by decide!, by decide!⟩

/-- C9: the top-level code runs to its end without throwing and writes exactly these 13 lines
with `console.log`, in this order: three of them for the three elements of the list, in
list order, and two for the two calls of `formatScore`. -/
theorem script_output :
    outOf script = some
      ["Area of the circle: 50.26544", "Hello, Ada!", "Hi there, Grace!", "Array item: 1",
       "Array item: \"two\"", "Array item: \x7b\"three\":3\x7d", "User coder active? true",
       "Avery scored 12 points.", "Anonymous scored 0 points.", "Total score: 50",
       "Squares: 1, 4, 9, 16", "Counter after increment: 1", "Accent color: blue"] ∧
    (outOf script).map List.length = some 13 ∧
    mixedArray.map (fun item => "Array item: " ++ stringifyText item) =
      ["Array item: 1", "Array item: \"two\"", "Array item: \x7b\"three\":3\x7d"] := by
  refine ⟨by decide!, by decide!, by decide!⟩

/-! ## Theorems: the deferred chains -/

theorem drain_of_no_jobs (f : Nat) (w : World) (h : w.jobs.length = 0) : drain f w = w := by
  have hj : w.jobs = [] := List.length_eq_zero.mp h
  cases f with
  | zero => rfl
  | succ n => simp only [drain, hj]

theorem drain_stable (n m : Nat) : ∀ w : World, (drain n w).jobs.length = 0 →
    drain (n + m) w = drain n w := by
  induction n with
  | zero =>
    intro w h
    rw [drain_of_no_jobs _ w h]
    rfl
  | succ k ih =>
    intro w h
    have e : k + 1 + m = (k + m) + 1 := by omega
    rw [e]
    cases hj : w.jobs with
    | nil => simp only [drain, hj]
    | cons j js =>
      simp only [drain, hj] at h ⊢
      exact ih _ h

theorem fireAt_stable (n m i : Nat) (w : World) (h : (fireAt n i w).jobs.length = 0) :
    fireAt (n + m) i w = fireAt n i w := by
  unfold fireAt at h ⊢
  cases ht : w.timers.get? i with
  | none => rfl
  | some t =>
    simp only [ht] at h ⊢
    exact drain_stable n m _ h

theorem eventLoop_done (s : Nat → Nat) (b f step : Nat) (w : World)
    (h : w.timers.length = 0) : eventLoop s b f step w = w := by
  cases f with
  | zero => rfl
  | succ n => simp only [eventLoop, h, if_true]

theorem eventLoop_step (s : Nat → Nat) (b f step : Nat) (w : World)
    (h : w.timers.length ≠ 0) :
    eventLoop s b (f + 1) step w =
      eventLoop s b f (step + 1) (fireAt b (s step % w.timers.length) w) := by
  simp only [eventLoop, h, if_false]

theorem script_ok : script = .ok scriptWorld := by
  have h : ∀ e : Except JSError World,
      (match e with
        | .ok _ => true
        | .error _ => false) = true →
      e = .ok (match e with
        | .ok w => w
        | .error _ => World.empty) := by
    intro e
    cases e with
    | ok w => intro _; rfl
    | error x => intro h; exact absurd h Bool.false_ne_true
  exact h script (by decide!)

theorem runLoop_script (s : Nat → Nat) (fuel : Nat) :
    runLoop s (fuel + 2) scriptWorld =
      fireAt 2 0 (fireAt 2 (s 0 % 2) scriptWorld) := by
  have facts : scriptWorld.jobs.length = 0 ∧ scriptWorld.timers.length = 2 ∧
      (fireAt 2 0 scriptWorld).jobs.length = 0 ∧ (fireAt 2 1 scriptWorld).jobs.length = 0 ∧
      (fireAt 2 0 scriptWorld).timers.length = 1 ∧ (fireAt 2 1 scriptWorld).timers.length = 1 ∧
      (fireAt 2 0 (fireAt 2 0 scriptWorld)).jobs.length = 0 ∧
      (fireAt 2 0 (fireAt 2 1 scriptWorld)).jobs.length = 0 ∧
      (fireAt 2 0 (fireAt 2 0 scriptWorld)).timers.length = 0 ∧
      (fireAt 2 0 (fireAt 2 1 scriptWorld)).timers.length = 0 := by decide!
  obtain ⟨j0, t0, j1a, j1b, t1a, t1b, j2a, j2b, t2a, t2b⟩ := facts
  have e2 : fuel + 2 = 2 + fuel := by omega
  unfold runLoop
  rw [drain_of_no_jobs _ _ j0, eventLoop_step _ _ _ _ _ (by omega), t0]
  rcases Nat.mod_two_eq_zero_or_one (s 0) with h | h
  · rw [h, e2, fireAt_stable 2 fuel 0 _ j1a, eventLoop_step _ _ _ _ _ (by omega), t1a,
      Nat.mod_one, fireAt_stable 2 fuel 0 _ j2a, eventLoop_done _ _ _ _ _ t2a]
  · rw [h, e2, fireAt_stable 2 fuel 1 _ j1b, eventLoop_step _ _ _ _ _ (by omega), t1b,
      Nat.mod_one, fireAt_stable 2 fuel 0 _ j2b, eventLoop_done _ _ _ _ _ t2b]

/-- C10: under every schedule of the timers, the run of the script ends with no timer and no
job left, and its output is the output of the top-level code (whose last line is
`Accent color: blue`) followed by the two lines `Promise resolved after 100ms` and
`Fetched user: Simulated User`, in one order or the other, each written exactly once;
both timers were set before the statement that writes `Accent color: blue` ran. -/
theorem deferred_lines_after_sync (schedule : Nat → Nat) (fuel : Nat) :
    ∃ before sync w,
      beforeAccent = .ok before ∧ before.timers.length = 2 ∧
      "Accent color: blue" ∉ before.out ∧
      outOf script = some sync ∧ sync.getLast? = some "Accent color: blue" ∧
      runScript schedule (fuel + 2) = .ok w ∧ w.timers = [] ∧ w.jobs = [] ∧
      (w.out = sync ++ ["Promise resolved after 100ms", "Fetched user: Simulated User"] ∨
       w.out = sync ++ ["Fetched user: Simulated User", "Promise resolved after 100ms"]) ∧
      w.out.count "Promise resolved after 100ms" = 1 ∧
      w.out.count "Fetched user: Simulated User" = 1 := by
  have hb : ∀ e : Except JSError World,
      (match e with
        | .ok _ => true
        | .error _ => false) = true →
      e = .ok (match e with
        | .ok w => w
        | .error _ => World.empty) := by
    intro e
    cases e with
    | ok w => intro _; rfl
    | error x => intro h; exact absurd h Bool.false_ne_true
  have hrun : runScript schedule (fuel + 2) =
      .ok (fireAt 2 0 (fireAt 2 (schedule 0 % 2) scriptWorld)) := by
    unfold runScript
    rw [script_ok]
    show Except.ok (runLoop schedule (fuel + 2) scriptWorld) = _
    rw [runLoop_script]
  have hsync : outOf script = some scriptWorld.out := by
    rw [script_ok]
    rfl
  refine ⟨_, scriptWorld.out, _, hb beforeAccent (by decide!), by decide!, by decide!, hsync,
    by decide!, hrun, ?_⟩
  rcases Nat.mod_two_eq_zero_or_one (schedule 0) with h | h
  · rw [h]
    refine ⟨List.length_eq_zero.mp (by decide!), List.length_eq_zero.mp (by decide!),
      Or.inl (by decide!), by decide!, by decide!⟩
  · rw [h]
    refine ⟨List.length_eq_zero.mp (by decide!), List.length_eq_zero.mp (by decide!),
      Or.inr (by decide!), by decide!, by decide!⟩

theorem runLoop_single (s : Nat → Nat) (fuel : Nat) (w : World)
    (hj : w.jobs.length = 0) (ht : w.timers.length = 1)
    (hj1 : (fireAt 1 0 w).jobs.length = 0) (ht1 : (fireAt 1 0 w).timers.length = 0) :
    runLoop s (fuel + 1) w = fireAt 1 0 w := by
  have e : fuel + 1 = 1 + fuel := by omega
  unfold runLoop
  rw [drain_of_no_jobs _ _ hj, eventLoop_step _ _ _ _ _ (by omega), ht, Nat.mod_one, e,
    fireAt_stable 1 fuel 0 _ hj1, eventLoop_done _ _ _ _ _ ht1]

theorem runLoop_zero (s : Nat → Nat) (w : World) : runLoop s 0 w = w := rfl

theorem runLoop_script_one (s : Nat → Nat) :
    runLoop s 1 scriptWorld = fireAt 1 (s 0 % 2) scriptWorld := by
  have facts : scriptWorld.jobs.length = 0 ∧ scriptWorld.timers.length = 2 := by decide!
  unfold runLoop
  rw [drain_of_no_jobs _ _ facts.1, eventLoop_step _ _ _ _ _ (by omega), facts.2]
  rfl

/-- C3: for every delay `ms` the promise of `wait(ms)` is pending until its timer fires, is
then fulfilled, and is never rejected; for every `id` the promise of `fetchUser(id)` is
fulfilled with a record whose `id` is the argument and whose `name` is `"Simulated User"`,
and is never rejected; in the run of the script, under every schedule and at every length
of the run, `console.error` has not been called and no promise is rejected. -/
theorem failure_paths_unreachable (ms : JSNumber) (id : JSValue) (schedule : Nat → Nat)
    (fuel : Nat) :
    (wait ms World.empty).2.stateOf (wait ms World.empty).1 = .pending ∧
    (runLoop schedule (fuel + 1) (wait ms World.empty).2).stateOf (wait ms World.empty).1 =
      .fulfilled .undefined ∧
    ((runLoop schedule fuel (wait ms World.empty).2).stateOf
      (wait ms World.empty).1).isRejected = false ∧
    (runLoop schedule (fuel + 1) (fetchUser id World.empty).2).stateOf
      (fetchUser id World.empty).1 =
      .fulfilled (.object [("id", id), ("name", .string "Simulated User")]) ∧
    (JSValue.object [("id", id), ("name", .string "Simulated User")]).get "id" = .ok id ∧
    (JSValue.object [("id", id), ("name", .string "Simulated User")]).get "name" =
      .ok (.string "Simulated User") ∧
    ((runLoop schedule fuel (fetchUser id World.empty).2).stateOf
      (fetchUser id World.empty).1).isRejected = false ∧
    (runLoop schedule (fuel + 1) (fetchUser id World.empty).2).anyRejected = false ∧
    (runLoop schedule (fuel + 1) (fetchUser id World.empty).2).err = [] ∧
    ∃ w, runScript schedule fuel = .ok w ∧ w.err = [] ∧ w.anyRejected = false := by
  have hw : ∀ f, runLoop schedule (f + 1) (wait ms World.empty).2 =
      fireAt 1 0 (wait ms World.empty).2 :=
    fun f => runLoop_single schedule f _ rfl rfl rfl rfl
  have hf : ∀ f, runLoop schedule (f + 1) (fetchUser id World.empty).2 =
      fireAt 1 0 (fetchUser id World.empty).2 :=
    fun f => runLoop_single schedule f _ rfl rfl rfl rfl
  refine ⟨rfl, ?_, ?_, ?_, rfl, rfl, ?_, ?_, ?_, ?_⟩
  · rw [hw]
    rfl
  · cases fuel with
    | zero => rfl
    | succ n =>
      rw [hw]
      rfl
  · rw [hf]
    rfl
  · cases fuel with
    | zero => rfl
    | succ n =>
      rw [hf]
      rfl
  · rw [hf]
    rfl
  · rw [hf]
    rfl
  · unfold runScript
    rw [script_ok]
    refine ⟨runLoop schedule fuel scriptWorld, rfl, ?_⟩
    match fuel with
    | 0 =>
      rw [runLoop_zero]
      exact ⟨List.length_eq_zero.mp (by decide!), by decide!⟩
    | 1 =>
      rw [runLoop_script_one]
      rcases Nat.mod_two_eq_zero_or_one (schedule 0) with h | h
      · rw [h]
        exact ⟨List.length_eq_zero.mp (by decide!), by decide!⟩
      · rw [h]
        exact ⟨List.length_eq_zero.mp (by decide!), by decide!⟩
    | n + 2 =>
      rw [runLoop_script]
      rcases Nat.mod_two_eq_zero_or_one (schedule 0) with h | h
      · rw [h]
        exact ⟨List.length_eq_zero.mp (by decide!), by decide!⟩
      · rw [h]
        exact ⟨List.length_eq_zero.mp (by decide!), by decide!⟩

/-! ## Lemmas on rounding -/

theorem unit_eq : unit = 2 ^ 1074 := rfl

theorem unit_pos : 0 < unit := Nat.pow_pos (by norm_num)

theorem log2Search_le (n : Nat) : ∀ k lo, 2 ^ lo ≤ n → 2 ^ (log2Search n k lo) ≤ n := by
  intro k
  induction k with
  | zero => intro lo h; exact h
  | succ k ih =>
    intro lo h
    simp only [log2Search]
    split
    · next hc => exact ih _ hc
    · exact ih _ h

theorem le_log2Search (n : Nat) : ∀ k lo j, 2 ^ j ≤ n → j < lo + 2 ^ k →
    j ≤ log2Search n k lo := by
  intro k
  induction k with
  | zero =>
    intro lo j _ hj
    simp only [log2Search]
    omega
  | succ k ih =>
    intro lo j h hj
    simp only [log2Search]
    have e : lo + 2 ^ (k + 1) = lo + 2 ^ k + 2 ^ k := by rw [pow_succ]; omega
    split
    · exact ih _ j h (by omega)
    · next hc =>
      refine ih _ j h ?_
      by_contra hge
      exact hc (le_trans (Nat.pow_le_pow_right (by norm_num) (by omega)) h)

theorem floorLog2_le (n : Nat) (h : 0 < n) : 2 ^ floorLog2 n ≤ n :=
  log2Search_le n 12 0 (by simpa using h)

theorem le_floorLog2 (n j : Nat) (h : 2 ^ j ≤ n) (hj : j < 4096) : j ≤ floorLog2 n :=
  le_log2Search n 12 0 j h (by norm_num; omega)

theorem roundHalfEven_exact (a q : Nat) (hq : 0 < q) : roundHalfEven (a * q) q = a := by
  simp only [roundHalfEven, Nat.mul_mod_left, Nat.mul_div_cancel _ hq, Nat.mul_zero, hq, if_true]

theorem le_roundHalfEven (p q : Nat) : p / q ≤ roundHalfEven p q := by
  simp only [roundHalfEven]
  split
  · exact le_rfl
  · split
    · exact Nat.le_succ _
    · split
      · exact le_rfl
      · exact Nat.le_succ _

theorem roundUnits_exact (m q : Nat) (hm : m < 2 ^ 53) (hq : 0 < q) :
    roundUnits (m * unit * q) q = m * unit := by
  simp only [roundUnits, Nat.mul_div_cancel _ hq]
  split
  · exact roundHalfEven_exact _ _ hq
  · next hd =>
    have hpos : 0 < m * unit := by
      by_contra h0
      exact hd (by
        have : m * unit = 0 := by omega
        rw [this]; exact Nat.pow_pos (by norm_num))
    have he := floorLog2_le _ hpos
    have hlt : m * unit < 2 ^ 1127 := by
      have : (2 : Nat) ^ 1127 = 2 ^ 53 * unit := by rw [unit_eq, ← pow_add]
      rw [this]
      exact Nat.mul_lt_mul_of_pos_right hm unit_pos
    have he2 : floorLog2 (m * unit) < 1127 :=
      (Nat.pow_lt_pow_iff_right (by norm_num)).mp (lt_of_le_of_lt he hlt)
    have hsplit : unit = 2 ^ (1074 - (floorLog2 (m * unit) - 52)) *
        2 ^ (floorLog2 (m * unit) - 52) := by
      rw [← pow_add]
      have : 1074 - (floorLog2 (m * unit) - 52) + (floorLog2 (m * unit) - 52) = 1074 := by
        omega
      rw [this]
      rfl
    have hp : m * unit * q = (m * 2 ^ (1074 - (floorLog2 (m * unit) - 52))) *
        (q * 2 ^ (floorLog2 (m * unit) - 52)) := by
      conv_lhs => rw [hsplit]
      ring
    rw [hp, roundHalfEven_exact _ _ (Nat.mul_pos hq (Nat.pow_pos (by norm_num)))]
    conv_rhs => rw [hsplit]
    ring

theorem roundUnits_ge (c : Nat) (hc : 2 ^ 53 ≤ c) : 2 ^ 53 * unit ≤ roundUnits (c * unit) 1 := by
  have h1127 : (2 : Nat) ^ 1127 = 2 ^ 53 * unit := by rw [unit_eq, ← pow_add]
  have hbig : 2 ^ 1127 ≤ c * unit := by
    rw [h1127]
    exact Nat.mul_le_mul_right _ hc
  have hd : ¬ c * unit < 2 ^ 53 := by
    have : (2 : Nat) ^ 53 ≤ 2 ^ 1127 := Nat.pow_le_pow_right (by norm_num) (by norm_num)
    omega
  simp only [roundUnits, Nat.div_one, hd, if_false, Nat.one_mul]
  have he := floorLog2_le (c * unit) (by omega)
  have he2 := le_floorLog2 (c * unit) 1127 hbig (by norm_num)
  rw [← h1127]
  have hsh : 0 < 2 ^ (floorLog2 (c * unit) - 52) := Nat.pow_pos (by norm_num)
  calc 2 ^ 1127 ≤ 2 ^ floorLog2 (c * unit) := Nat.pow_le_pow_right (by norm_num) he2
    _ = 2 ^ 52 * 2 ^ (floorLog2 (c * unit) - 52) := by rw [← pow_add]; congr 1; omega
    _ ≤ (c * unit / 2 ^ (floorLog2 (c * unit) - 52)) * 2 ^ (floorLog2 (c * unit) - 52) := by
        apply Nat.mul_le_mul_right
        rw [Nat.le_div_iff_mul_le hsh, ← pow_add]
        have : 52 + (floorLog2 (c * unit) - 52) = floorLog2 (c * unit) := by omega
        rw [this]
        exact he
    _ ≤ _ := Nat.mul_le_mul_right _ (le_roundHalfEven _ _)

theorem ofRounded_exact (neg : Bool) (k : Int) (hk : k.natAbs < 2 ^ 53)
    (hneg : neg = true → k ≤ 0) (hpos : neg = false → 0 ≤ k) :
    JSNumber.ofRounded neg (k.natAbs * unit) = JSNumber.exact k := by
  have hlt : ¬ 2 ^ 2098 ≤ k.natAbs * unit := by
    have h1 : k.natAbs * unit < 2 ^ 53 * unit := Nat.mul_lt_mul_of_pos_right hk unit_pos
    have h2 : 2 ^ 53 * unit ≤ 2 ^ 2098 := by
      rw [unit_eq, ← pow_add]
      exact Nat.pow_le_pow_right (by norm_num) (by norm_num)
    omega
  simp only [JSNumber.ofRounded, hlt, if_false, JSNumber.exact]
  congr 1
  cases neg with
  | true =>
    have := hneg rfl
    simp only [if_true]
    push_cast
    rw [abs_of_nonpos this]
    ring
  | false =>
    have := hpos rfl
    simp only [Bool.false_eq_true, if_false]
    push_cast
    rw [abs_of_nonneg this]

theorem ofInt_exact (k : Int) (hk : k.natAbs < 2 ^ 53) : JSNumber.ofInt k = JSNumber.exact k := by
  have h := roundUnits_exact k.natAbs 1 hk (by norm_num)
  rw [Nat.mul_one] at h
  simp only [JSNumber.ofInt, JSNumber.ofRat, h]
  exact ofRounded_exact _ k hk (fun hn => le_of_lt (of_decide_eq_true hn))
    (fun hn => not_lt.mp (of_decide_eq_false hn))

theorem add_exact (a b : Int) (h : (a + b).natAbs < 2 ^ 53) :
    (JSNumber.exact a).add (JSNumber.exact b) = JSNumber.exact (a + b) := by
  have hsum : a * (unit : Int) + b * (unit : Int) = (a + b) * (unit : Int) := by ring
  have habs : ((a + b) * (unit : Int)).natAbs = (a + b).natAbs * unit := by
    rw [Int.natAbs_mul, Int.natAbs_ofNat]
  have hr := roundUnits_exact (a + b).natAbs 1 h (by norm_num)
  rw [Nat.mul_one] at hr
  have hu : (0 : Int) < (unit : Int) := by exact_mod_cast unit_pos
  simp only [JSNumber.exact, JSNumber.add, hsum, habs, hr]
  refine ofRounded_exact _ (a + b) h (fun hn => ?_) (fun hn => ?_)
  · have := of_decide_eq_true hn
    by_contra hc
    exact absurd this (not_lt.mpr (mul_nonneg (le_of_lt (not_le.mp hc)) (le_of_lt hu)))
  · have := of_decide_eq_false hn
    by_contra hc
    exact this (mul_neg_of_neg_of_pos (not_le.mp hc) hu)

theorem mul_exact (a b : Int) (h : (a * b).natAbs < 2 ^ 53) :
    (JSNumber.exact a).mul (JSNumber.exact b) = JSNumber.exact (a * b) := by
  have hu : (0 : Int) < (unit : Int) := by exact_mod_cast unit_pos
  have hp : (a * (unit : Int)).natAbs * (b * (unit : Int)).natAbs =
      (a * b).natAbs * unit * unit := by
    simp only [Int.natAbs_mul, Int.natAbs_ofNat]
    ring
  have hr := roundUnits_exact (a * b).natAbs unit h unit_pos
  simp only [JSNumber.exact, JSNumber.mul, hp, hr]
  have ha : (a * (unit : Int) < 0) ↔ a < 0 :=
    ⟨fun hlt => by
      by_contra hc
      exact absurd hlt (not_lt.mpr (mul_nonneg (not_lt.mp hc) (le_of_lt hu))),
     fun hlt => mul_neg_of_neg_of_pos hlt hu⟩
  have hb : (b * (unit : Int) < 0) ↔ b < 0 :=
    ⟨fun hlt => by
      by_contra hc
      exact absurd hlt (not_lt.mpr (mul_nonneg (not_lt.mp hc) (le_of_lt hu))),
     fun hlt => mul_neg_of_neg_of_pos hlt hu⟩
  refine ofRounded_exact _ (a * b) h (fun hn => ?_) (fun hn => ?_)
  · simp only [ha, hb] at hn
    rcases lt_or_le a 0 with h1 | h1 <;> rcases lt_or_le b 0 with h2 | h2
    · simp [h1, h2] at hn
    · exact mul_nonpos_of_nonpos_of_nonneg (le_of_lt h1) h2
    · exact mul_nonpos_of_nonneg_of_nonpos h1 (le_of_lt h2)
    · simp [not_lt.mpr h1, not_lt.mpr h2] at hn
  · simp only [ha, hb] at hn
    rcases lt_or_le a 0 with h1 | h1 <;> rcases lt_or_le b 0 with h2 | h2
    · exact le_of_lt (mul_pos_of_neg_of_neg h1 h2)
    · rcases eq_or_lt_of_le h2 with h3 | h3
      · rw [← h3, mul_zero]
      · simp [h1, not_lt.mpr h2] at hn
    · rcases eq_or_lt_of_le h1 with h3 | h3
      · rw [← h3, zero_mul]
      · simp [h2, not_lt.mpr h1] at hn
    · exact mul_nonneg h1 h2

/-! ## Theorems: sum, counter, squares -/

theorem foldl_add_exact : ∀ (xs : List Int) (acc : Int),
    (∀ t ∈ xs.scanl (· + ·) acc, t.natAbs < 2 ^ 53) →
    (xs.map JSNumber.exact).foldl (fun total n => total.add n) (JSNumber.exact acc) =
      JSNumber.exact (acc + xs.sum) := by
  intro xs
  induction xs with
  | nil => intro acc _; simp
  | cons x xs ih =>
    intro acc h
    have hmem : acc + x ∈ List.scanl (· + ·) acc (x :: xs) := by
      cases xs <;> simp [List.scanl]
    have hstep := add_exact acc x (h _ hmem)
    simp only [List.map_cons, List.foldl_cons, hstep, List.sum_cons]
    rw [ih (acc + x) (fun t ht => h t (by simp [List.scanl, ht])), add_assoc]

/-- C1, within the safe-integer range: for every finite sequence of integer arguments, each
below `2 ^ 53` in magnitude, whose running totals all stay below `2 ^ 53` in magnitude,
`sumAll` returns the exact sum (every argument is the Number with exactly that integer value);
`sumAll()` is `0`, and the call of the script, `sumAll(5, 10, 15, 20)`, returns `50`. -/
theorem sumAll_exact (xs : List Int)
    (hargs : ∀ x ∈ xs, x.natAbs < 2 ^ 53)
    (h : ∀ t ∈ xs.scanl (· + ·) 0, t.natAbs < 2 ^ 53) :
    xs.map JSNumber.ofInt = xs.map JSNumber.exact ∧
    sumAll (xs.map JSNumber.ofInt) = JSNumber.exact xs.sum ∧
    sumAll [] = JSNumber.exact 0 ∧
    baseScores ++ [JSNumber.ofInt 20] = [5, 10, 15, 20].map JSNumber.ofInt ∧
    sumAll (baseScores ++ [JSNumber.ofInt 20]) = JSNumber.exact 50 := by
  have h0 : JSNumber.ofInt 0 = JSNumber.exact 0 := ofInt_exact 0 (by norm_num)
  have hmap : xs.map JSNumber.ofInt = xs.map JSNumber.exact :=
    List.map_congr_left (fun x hx => ofInt_exact x (hargs x hx))
  refine ⟨hmap, ?_, h0, by decide!, by decide!⟩
  unfold sumAll
  rw [hmap, h0, foldl_add_exact xs 0 h, zero_add]

/-- The instance of `sumAll_exact` at the arguments of the script. -/
theorem sumAll_exact_witness :
    (∀ x ∈ ([5, 10, 15, 20] : List Int), x.natAbs < 2 ^ 53) ∧
    (∀ t ∈ ([5, 10, 15, 20] : List Int).scanl (· + ·) 0, t.natAbs < 2 ^ 53) ∧
    sumAll (([5, 10, 15, 20] : List Int).map JSNumber.ofInt) =
      JSNumber.exact ([5, 10, 15, 20] : List Int).sum :=
  ⟨by decide, by decide, (sumAll_exact [5, 10, 15, 20] (by decide) (by decide)).2.1⟩

/-- C1, beyond the safe-integer range: `sumAll(9007199254740992, 1)` returns `9007199254740992`,
not the sum `9007199254740993` of its two integer arguments, each of which is the Number with
exactly that integer value. -/
theorem sumAll_not_exact :
    ([2 ^ 53, 1] : List Int).map JSNumber.ofInt = ([2 ^ 53, 1] : List Int).map JSNumber.exact ∧
    sumAll (([2 ^ 53, 1] : List Int).map JSNumber.ofInt) = JSNumber.exact (2 ^ 53) ∧
    sumAll (([2 ^ 53, 1] : List Int).map JSNumber.ofInt) ≠
      JSNumber.exact ([2 ^ 53, 1] : List Int).sum := by
  decide!

theorem afterCalls_exact (s : Int) : ∀ n : Nat, (s + n).natAbs < 2 ^ 53 → s.natAbs < 2 ^ 53 →
    Counter.afterCalls n ⟨JSNumber.exact s⟩ = ⟨JSNumber.exact (s + n)⟩ := by
  intro n
  induction n with
  | zero => intro _ _; simp [Counter.afterCalls]
  | succ k ih =>
    intro h hs
    have hk : (s + k).natAbs < 2 ^ 53 := by omega
    have h1 : JSNumber.ofInt 1 = JSNumber.exact 1 := ofInt_exact 1 (by norm_num)
    have hadd := add_exact (s + k) 1 (by push_cast at h; rw [add_assoc]; exact h)
    simp only [Counter.afterCalls, ih hk hs, Counter.increment, h1, hadd]
    push_cast
    rw [add_assoc]

/-- C2, within the safe-integer range: for every integer start value `s` and every `n ≥ 1` with
`-(2 ^ 53) < s` and `s + n < 2 ^ 53`, the `n`-th consecutive call of `increment()` on a
Counter constructed with start `s` returns `s + n` and leaves `count` equal to `s + n`; a
Counter constructed with no argument starts at `0` and its first `increment()` returns `1`. -/
theorem counter_increment_exact (s : Int) (n : Nat) (hn : 1 ≤ n)
    (hlo : -(2 ^ 53 : Int) < s) (hhi : s + n < 2 ^ 53) :
    (Counter.nthCall n (Counter.new (some (JSNumber.exact s)))).1 = JSNumber.exact (s + n) ∧
    (Counter.nthCall n (Counter.new (some (JSNumber.exact s)))).2.count =
      JSNumber.exact (s + n) ∧
    counter = ⟨JSNumber.exact 0⟩ ∧
    (Counter.nthCall 1 counter).1 = JSNumber.exact 1 := by
  have h1 : JSNumber.ofInt 1 = JSNumber.exact 1 := ofInt_exact 1 (by norm_num)
  have hs : s.natAbs < 2 ^ 53 := by omega
  have hprev : (s + ((n - 1 : Nat) : Int)).natAbs < 2 ^ 53 := by omega
  have hlast : (s + ((n - 1 : Nat) : Int) + 1).natAbs < 2 ^ 53 := by omega
  have hcall : Counter.nthCall n (Counter.new (some (JSNumber.exact s))) =
      (JSNumber.exact (s + n), ⟨JSNumber.exact (s + n)⟩) := by
    simp only [Counter.nthCall, Counter.new, afterCalls_exact s (n - 1) hprev hs,
      Counter.increment, h1, add_exact _ 1 hlast]
    have e : s + ((n - 1 : Nat) : Int) + 1 = s + n := by omega
    rw [e]
  refine ⟨by rw [hcall], by rw [hcall], by decide!, by decide!⟩

/-- The instance of `counter_increment_exact` at start `7`, third call. -/
theorem counter_increment_exact_witness :
    (Counter.nthCall 3 (Counter.new (some (JSNumber.exact 7)))).1 = JSNumber.exact (7 + 3) :=
  (counter_increment_exact 7 3 (by decide) (by decide) (by decide)).1

/-- C2, beyond the safe-integer range: on a Counter constructed with start `9007199254740992`
the first call of `increment()` returns `9007199254740992`, not `9007199254740993`. -/
theorem counter_increment_not_exact :
    JSNumber.ofInt (2 ^ 53) = JSNumber.exact (2 ^ 53) ∧
    (Counter.nthCall 1 (Counter.new (some (JSNumber.exact (2 ^ 53))))).1 =
      JSNumber.exact (2 ^ 53) ∧
    (Counter.nthCall 1 (Counter.new (some (JSNumber.exact (2 ^ 53))))).1 ≠
      JSNumber.exact (2 ^ 53 + 1) ∧
    (Counter.nthCall 1 (Counter.new (some (JSNumber.exact (2 ^ 53))))).2.count ≠
      JSNumber.exact (2 ^ 53 + 1) := by
  decide!

/-- C7, within the safe-integer range: for every array of integers each of which has its square
below `2 ^ 53`, `numbers.map((n) => n * n)` creates a new array of the same length whose `i`-th
element is the square of the `i`-th element of the input, and the input array is unchanged; for
`[1, 2, 3, 4]` the new array is `[1, 4, 9, 16]`. -/
theorem squares_exact (st : ArrayStore) (ref : Nat) (xs : List Int)
    (href : st.arrays.get? ref = some (xs.map JSNumber.exact))
    (hsafe : ∀ x ∈ xs, (x * x).natAbs < 2 ^ 53) :
    (squaresOf ref st).1 ≠ ref ∧
    (squaresOf ref st).2.arrays.get? ref = some (xs.map JSNumber.exact) ∧
    (squaresOf ref st).2.arrays.get? (squaresOf ref st).1 =
      some (xs.map (fun x => JSNumber.exact (x * x))) ∧
    (xs.map (fun x => JSNumber.exact (x * x))).length = xs.length ∧
    (∀ i x, xs.get? i = some x →
      (xs.map (fun x => JSNumber.exact (x * x))).get? i = some (JSNumber.exact (x * x))) ∧
    numbers = [1, 2, 3, 4].map JSNumber.exact ∧
    squares = [1, 4, 9, 16].map JSNumber.exact := by
  have hlt : ref < st.arrays.length := by
    by_contra hc
    rw [List.get?_eq_none.mpr (not_lt.mp hc)] at href
    exact absurd href (by simp)
  have hmap : (xs.map JSNumber.exact).map square = xs.map (fun x => JSNumber.exact (x * x)) := by
    rw [List.map_map]
    apply List.map_congr_left
    intro x hx
    exact mul_exact x x (hsafe x hx)
  have hget : st.arrays.getD ref [] = xs.map JSNumber.exact := by
    rw [List.getD_eq_getElem?_getD, ← List.get?_eq_getElem?, href]
    rfl
  refine ⟨?_, ?_, ?_, by simp, ?_, by decide!, by decide!⟩
  · show st.arrays.length ≠ ref
    omega
  · show (st.arrays ++ _).get? ref = _
    rw [List.get?_eq_getElem?, List.getElem?_append_left hlt, ← List.get?_eq_getElem?, href]
  · show (st.arrays ++ [(st.arrays.getD ref []).map square]).get? st.arrays.length = _
    rw [List.get?_eq_getElem?, List.getElem?_append_right (le_refl _), hget, hmap]
    simp
  · intro i x hx
    rw [List.get?_eq_getElem?, List.getElem?_map, ← List.get?_eq_getElem?, hx]
    rfl

/-- The instance of `squares_exact` at the array of the script. -/
theorem squares_exact_witness :
    (squaresOf 0 ⟨[numbers]⟩).2.arrays.get? (squaresOf 0 ⟨[numbers]⟩).1 =
      some (([1, 2, 3, 4] : List Int).map (fun x => JSNumber.exact (x * x))) :=
  (squares_exact ⟨[numbers]⟩ 0 [1, 2, 3, 4] (by decide!) (by decide)).2.2.1

/-- C7, beyond the safe-integer range: for the array `[94906267]` the new array holds
`9007199515875288`, which is not the square `9007199515875289` of its element. -/
theorem squares_not_exact :
    JSNumber.ofInt 94906267 = JSNumber.exact 94906267 ∧
    (squaresOf 0 ⟨[[JSNumber.exact 94906267]]⟩).2.arrays.get?
      (squaresOf 0 ⟨[[JSNumber.exact 94906267]]⟩).1 = some [JSNumber.exact 9007199515875288] ∧
    (squaresOf 0 ⟨[[JSNumber.exact 94906267]]⟩).2.arrays.get?
      (squaresOf 0 ⟨[[JSNumber.exact 94906267]]⟩).1 ≠
      some [JSNumber.exact (94906267 * 94906267)] := by
  decide!

/-! ## Lemmas on decimal digits -/

theorem toDigitsCore_eq : ∀ (fuel n : Nat) (ds : List Char), n < fuel →
    Nat.toDigitsCore 10 fuel n ds = Nat.toDigits 10 n ++ ds := by
  intro fuel
  induction fuel using Nat.strong_induction_on with
  | _ fuel ih =>
    intro n ds hn
    cases fuel with
    | zero => omega
    | succ f =>
      unfold Nat.toDigits
      simp only [Nat.toDigitsCore]
      by_cases h0 : n / 10 = 0
      · simp only [h0, if_true, List.singleton_append]
      · simp only [h0, if_false]
        have hdiv : n / 10 < n := Nat.div_lt_self (by omega) (by norm_num)
        rw [ih f (by omega) (n / 10) _ (by omega), ih n (by omega) (n / 10) _ hdiv]
        simp

theorem toDigits_rec (n : Nat) : Nat.toDigits 10 n =
    if n < 10 then [Nat.digitChar n] else Nat.toDigits 10 (n / 10) ++ [Nat.digitChar (n % 10)] := by
  conv_lhs => unfold Nat.toDigits
  simp only [Nat.toDigitsCore]
  by_cases h : n < 10
  · have h0 : n / 10 = 0 := Nat.div_eq_of_lt h
    simp only [h0, if_true, h, Nat.mod_eq_of_lt h]
  · have h0 : n / 10 ≠ 0 := by omega
    simp only [h0, if_false, h]
    exact toDigitsCore_eq n (n / 10) _ (Nat.div_lt_self (by omega) (by norm_num))

theorem toDigits_bounds : ∀ n : Nat,
    n < 10 ^ (Nat.toDigits 10 n).length ∧ 1 ≤ (Nat.toDigits 10 n).length ∧
    (0 < n → 10 ^ ((Nat.toDigits 10 n).length - 1) ≤ n) := by
  intro n
  induction n using Nat.strong_induction_on with
  | _ n ih =>
    rw [toDigits_rec]
    by_cases h : n < 10
    · simp only [h, if_true, List.length_singleton, pow_one, le_refl, Nat.sub_self, pow_zero,
        true_and]
      exact fun hp => hp
    · simp only [h, if_false, List.length_append, List.length_singleton, Nat.add_sub_cancel]
      obtain ⟨h1, h2, h3⟩ := ih (n / 10) (Nat.div_lt_self (by omega) (by norm_num))
      refine ⟨?_, by omega, fun _ => ?_⟩
      · rw [pow_succ]
        have := Nat.div_add_mod n 10
        have := Nat.mod_lt n (show 10 > 0 by norm_num)
        omega
      · have h4 := h3 (by omega)
        have e : (Nat.toDigits 10 (n / 10)).length =
            ((Nat.toDigits 10 (n / 10)).length - 1) + 1 := by omega
        rw [e, pow_succ]
        have := Nat.div_add_mod n 10
        omega

theorem toDigits_mul_pow (s : Nat) (hs : 0 < s) : ∀ z : Nat,
    Nat.toDigits 10 (s * 10 ^ z) = Nat.toDigits 10 s ++ List.replicate z '0' := by
  intro z
  induction z with
  | zero => simp
  | succ z ih =>
    have hm : 0 < s * 10 ^ z := Nat.mul_pos hs (Nat.pow_pos (by norm_num))
    have e : s * 10 ^ (z + 1) = s * 10 ^ z * 10 := by rw [pow_succ, Nat.mul_assoc]
    rw [toDigits_rec, e]
    have h10 : ¬ s * 10 ^ z * 10 < 10 := by omega
    simp only [h10, if_false, Nat.mul_div_cancel _ (show 0 < 10 by norm_num),
      Nat.mul_mod_left, ih, List.append_assoc]
    congr 1
    rw [List.replicate_succ']
    rfl

/-! ## Lemmas on Number::toString for safe integers -/

theorem roundUnits_int_inj (K c : Nat) (hK : K < 2 ^ 53)
    (h : roundUnits (c * unit) 1 = K * unit) : c = K := by
  by_cases hc : c < 2 ^ 53
  · have := roundUnits_exact c 1 hc (by norm_num)
    rw [Nat.mul_one, h] at this
    exact (Nat.eq_of_mul_eq_mul_right unit_pos this).symm
  · have h1 := roundUnits_ge c (not_lt.mp hc)
    rw [h] at h1
    have := Nat.le_of_mul_le_mul_right h1 unit_pos
    omega

theorem closest_none (A k : Nat) (l : List (Int × Nat)) (h : closest A k l = none) : l = [] := by
  cases l with
  | nil => rfl
  | cons c cs =>
    simp only [closest] at h
    split at h
    · exact absurd h (by simp)
    · split at h <;> exact absurd h (by simp)

theorem closest_mem (A k : Nat) : ∀ (l : List (Int × Nat)) (c : Int × Nat),
    closest A k l = some c → c ∈ l := by
  intro l
  induction l with
  | nil => intro c h; simp [closest] at h
  | cons a as ih =>
    intro c h
    simp only [closest] at h
    split at h
    · simp only [Option.some.injEq] at h
      simp [h]
    · next b hb =>
      split at h
      · simp only [Option.some.injEq] at h
        rw [← h]
        exact List.mem_cons_of_mem _ (ih b hb)
      · simp only [Option.some.injEq] at h
        simp [h]

theorem validCandidate_int (K D k : Nat) (hK : K < 2 ^ 53) (hKD : K < 10 ^ D)
    (hk1 : 1 ≤ k) (hkD : k ≤ D) (c : Int × Nat)
    (hc : c ∈ candidates (K * unit) (D : Int) k)
    (hv : validCandidate (K * unit) k c = true) :
    c.1 = (D : Int) ∧ c.2 * 10 ^ (D - k) = K := by
  simp only [validCandidate, Bool.and_eq_true, decide_eq_true_eq, roundsTo, beq_iff_eq] at hv
  obtain ⟨⟨hlo, _⟩, hr⟩ := hv
  have hn : c.1 = (D : Int) ∨ c.1 = (D : Int) + 1 := by
    simp only [candidates, List.mem_cons, List.mem_singleton, List.not_mem_nil, or_false] at hc
    rcases hc with h | h | h | h <;> simp [h]
  rcases hn with h | h
  · refine ⟨h, ?_⟩
    have e1 : (c.1 - (k : Int)).toNat = D - k := by omega
    have e2 : (-(c.1 - (k : Int))).toNat = 0 := by omega
    rw [e1, e2, pow_zero] at hr
    exact roundUnits_int_inj K _ hK hr
  · exfalso
    have e1 : (c.1 - (k : Int)).toNat = D + 1 - k := by omega
    have e2 : (-(c.1 - (k : Int))).toNat = 0 := by omega
    rw [e1, e2, pow_zero] at hr
    have hval := roundUnits_int_inj K _ hK hr
    have hge : 10 ^ D ≤ c.2 * 10 ^ (D + 1 - k) := by
      have : D = (k - 1) + (D + 1 - k) := by omega
      conv_lhs => rw [this, pow_add]
      exact Nat.mul_le_mul_right _ hlo
    omega

theorem digitSearch_int (K D : Nat) (hK : K < 2 ^ 53) (hKD : K < 10 ^ D)
    (hDK : 10 ^ (D - 1) ≤ K) : ∀ (j k fuel : Nat), k + j = D → 1 ≤ k → j < fuel →
    ∃ k' s, digitSearch (K * unit) (D : Int) fuel k = some ((D : Int), k', s) ∧
      k' ≤ D ∧ s * 10 ^ (D - k') = K := by
  intro j
  induction j with
  | zero =>
    intro k fuel hkj hk1 hf
    obtain ⟨f, rfl⟩ : ∃ f, fuel = f + 1 := ⟨fuel - 1, by omega⟩
    have hkD : k = D := by omega
    simp only [digitSearch]
    cases hcl : closest (K * unit) k
        ((candidates (K * unit) (D : Int) k).filter (validCandidate (K * unit) k)) with
    | some c =>
      have hm := closest_mem _ _ _ _ hcl
      rw [List.mem_filter] at hm
      obtain ⟨h1, h2⟩ := validCandidate_int K D k hK hKD hk1 (by omega) c hm.1 hm.2
      exact ⟨k, c.2, by simp only [h1], by omega, by rw [hkD] at h2 ⊢; exact h2⟩
    | none =>
      exfalso
      have hnil := closest_none _ _ _ hcl
      have hmem : ((D : Int), K) ∈
          (candidates (K * unit) (D : Int) k).filter (validCandidate (K * unit) k) := by
        rw [List.mem_filter]
        constructor
        · have hfl : floorScaled (K * unit) ((D : Int) - (k : Int)) = K := by
            have e0 : (D : Int) - (k : Int) = 0 := by omega
            rw [e0]
            simp only [floorScaled, neg_zero, Int.toNat_zero, pow_zero, Nat.mul_one]
            exact Nat.mul_div_cancel _ unit_pos
          simp only [candidates, hfl]
          exact List.mem_cons_self _ _
        · have e0 : (D : Int) - (k : Int) = 0 := by omega
          have hr := roundUnits_exact K 1 hK (by norm_num)
          simp only [validCandidate, roundsTo, e0, neg_zero, Int.toNat_zero, pow_zero,
            Nat.mul_one, Bool.and_eq_true, decide_eq_true_eq, beq_iff_eq]
          rw [Nat.mul_one] at hr
          exact ⟨⟨by rw [hkD]; exact hDK, by rw [hkD]; exact hKD⟩, hr⟩
      rw [hnil] at hmem
      exact absurd hmem (List.not_mem_nil _)
  | succ j ih =>
    intro k fuel hkj hk1 hf
    obtain ⟨f, rfl⟩ : ∃ f, fuel = f + 1 := ⟨fuel - 1, by omega⟩
    simp only [digitSearch]
    cases hcl : closest (K * unit) k
        ((candidates (K * unit) (D : Int) k).filter (validCandidate (K * unit) k)) with
    | some c =>
      have hm := closest_mem _ _ _ _ hcl
      rw [List.mem_filter] at hm
      obtain ⟨h1, h2⟩ := validCandidate_int K D k hK hKD hk1 (by omega) c hm.1 hm.2
      exact ⟨k, c.2, by simp only [h1], by omega, h2⟩
    | none => exact ih (k + 1) f (by omega) (by omega) (by omega)

theorem positiveToString_int (K : Nat) (h0 : 0 < K) (hK : K < 2 ^ 53) :
    positiveToString (K * unit) = String.mk (Nat.toDigits 10 K) := by
  obtain ⟨hb1, hb2, hb3⟩ := toDigits_bounds K
  have hD : decimalOrder (K * unit) = ((Nat.toDigits 10 K).length : Int) := by
    have : unit ≤ K * unit := Nat.le_mul_of_pos_left _ h0
    simp only [decimalOrder, this, if_true, Nat.mul_div_cancel _ unit_pos]
  have h16 : (Nat.toDigits 10 K).length ≤ 16 := by
    by_contra hc
    have h1 : 10 ^ 16 ≤ 10 ^ ((Nat.toDigits 10 K).length - 1) :=
      Nat.pow_le_pow_right (by norm_num) (by omega)
    have h2 := hb3 h0
    have h3 : (2 : Nat) ^ 53 < 10 ^ 16 := by norm_num
    omega
  obtain ⟨k', s, hs, hk', hval⟩ := digitSearch_int K _ hK hb1 (hb3 h0)
    ((Nat.toDigits 10 K).length - 1) 1 17 (by omega) (le_refl _) (by omega)
  have hspos : 0 < s := by
    rcases Nat.eq_zero_or_pos s with h | h
    · rw [h, Nat.zero_mul] at hval
      omega
    · exact h
  simp only [positiveToString, hD, hs, layout, digitsOf]
  have c1 : (-5 : Int) ≤ ((Nat.toDigits 10 K).length : Int) ∧
      ((Nat.toDigits 10 K).length : Int) ≤ 21 := by omega
  have c2 : (k' : Int) ≤ ((Nat.toDigits 10 K).length : Int) := by omega
  simp only [c1, c2, and_self, if_true, Int.toNat_ofNat]
  rw [← toDigits_mul_pow s hspos, hval]

theorem exact_toString (k : Int) (hk : k.natAbs < 2 ^ 53) :
    (JSNumber.exact k).toString = toString k := by
  have hu : (0 : Int) < (unit : Int) := by exact_mod_cast unit_pos
  rcases lt_trichotomy k 0 with hneg | hzero | hpos
  · have h1 : k * (unit : Int) < 0 := mul_neg_of_neg_of_pos hneg hu
    have h2 : ¬ k * (unit : Int) = 0 := ne_of_lt h1
    have h3 : (k * (unit : Int)).natAbs = k.natAbs * unit := by
      rw [Int.natAbs_mul, Int.natAbs_ofNat]
    simp only [JSNumber.exact, JSNumber.toString, h1, h2, if_true, if_false, h3]
    rw [positiveToString_int _ (by omega) hk]
    obtain ⟨m, rfl⟩ := Int.eq_negSucc_of_lt_zero hneg
    rfl
  · rw [hzero]
    rfl
  · have h1 : ¬ k * (unit : Int) < 0 := not_lt.mpr (le_of_lt (mul_pos hpos hu))
    have h2 : ¬ k * (unit : Int) = 0 := ne_of_gt (mul_pos hpos hu)
    have h3 : (k * (unit : Int)).natAbs = k.natAbs * unit := by
      rw [Int.natAbs_mul, Int.natAbs_ofNat]
    simp only [JSNumber.exact, JSNumber.toString, h1, h2, if_false, h3]
    rw [positiveToString_int _ (by omega) hk]
    obtain ⟨m, rfl⟩ := Int.eq_ofNat_of_zero_le (le_of_lt hpos)
    rfl

/-! ## Theorems: formatScore -/

/-- C5, within the safe-integer range: for every string `name` and every integer `score` below
`2 ^ 53` in magnitude, `formatScore(name, score)` is `name`, then `" scored "`, then the decimal
text of `score`, then `" points."`; an omitted argument takes its default (`"Anonymous"`, `0`)
and the text `undefined` does not appear for it: `formatScore()` is `"Anonymous scored 0
points."`, `formatScore(name)` is `name + " scored 0 points."`, and `formatScore("Avery", 12)`
is `"Avery scored 12 points."`. -/
theorem formatScore_spec (name : String) (score : Int) (h : score.natAbs < 2 ^ 53) :
    formatScore (.string name) (.number (JSNumber.exact score)) =
      name ++ " scored " ++ toString score ++ " points." ∧
    formatScore .undefined (.number (JSNumber.exact score)) =
      "Anonymous scored " ++ toString score ++ " points." ∧
    formatScore (.string name) .undefined = name ++ " scored 0 points." ∧
    formatScore .undefined .undefined = "Anonymous scored 0 points." ∧
    formatScore (.string "Avery") (.number (JSNumber.ofInt 12)) = "Avery scored 12 points." := by
  have h0 : (JSNumber.ofInt 0).toString = "0" := by decide!
  refine ⟨?_, ?_, ?_, by decide!, by decide!⟩
  · simp only [formatScore, JSValue.withDefault, JSValue.toStr, exact_toString score h]
  · simp only [formatScore, JSValue.withDefault, JSValue.toStr, exact_toString score h]
    rfl
  · simp only [formatScore, JSValue.withDefault, JSValue.toStr, h0]
    rw [String.append_assoc, String.append_assoc]
    rfl

/-- The instance of `formatScore_spec` at the call of the script. -/
theorem formatScore_spec_witness :
    formatScore (.string "Avery") (.number (JSNumber.exact 12)) =
      "Avery" ++ " scored " ++ toString (12 : Int) ++ " points." :=
  (formatScore_spec "Avery" 12 (by decide)).1

/-- C5, beyond the safe-integer range: `formatScore("Avery", 1e21)`, whose score is the integer
`1000000000000000000000`, is `"Avery scored 1e+21 points."`. -/
theorem formatScore_not_decimal :
    JSNumber.ofInt (10 ^ 21) = JSNumber.exact (10 ^ 21) ∧
    formatScore (.string "Avery") (.number (JSNumber.exact (10 ^ 21))) =
      "Avery scored 1e+21 points." ∧
    formatScore (.string "Avery") (.number (JSNumber.exact (10 ^ 21))) ≠
      "Avery" ++ " scored " ++ toString (10 ^ 21 : Int) ++ " points." := by
  decide!

end JsExamples
